import Mathlib

/-!
Verification development for `staku_svg.py`, the STAKU board drawing script.

The Python source is shallowly embedded:
* `TinyVector` is the 2D vector class; Python's dynamic operand dispatch in
  `__mul__` / `__truediv__` is modelled by the `Operand` sum type, and raised
  exceptions by `Except PyError`.
* The `math` module functions the script uses (`pi`, `sqrt`, `cos`, `sin`)
  are gathered in the `MathOps` record and passed explicitly; over `ℝ` they
  are instantiated with `Real.pi`, `Real.sqrt`, `Real.cos`, `Real.sin`.
* Numeric values are idealised as members of a field `α` (`ℝ` for the real
  script, `ℚ` for executable test instances).
-/

namespace Staku

/-- The `Side` enum of the source (NORTH / SOUTH / WEST / EAST). -/
inductive Side where
  | NORTH
  | SOUTH
  | WEST
  | EAST
deriving DecidableEq, Repr

/-- `TinyVector`: lightweight 2D vector (fields `__x`, `__y` of the source). -/
structure TinyVector (α : Type) where
  x : α
  y : α
deriving DecidableEq, Repr

namespace TinyVector

variable {α : Type}

/-- `__add__` on two vectors. -/
instance [Add α] : Add (TinyVector α) :=
  ⟨fun a b => ⟨a.x + b.x, a.y + b.y⟩⟩

/-- `__sub__` on two vectors. -/
instance [Sub α] : Sub (TinyVector α) :=
  ⟨fun a b => ⟨a.x - b.x, a.y - b.y⟩⟩

/-- `__neg__`. -/
instance [Neg α] : Neg (TinyVector α) :=
  ⟨fun a => ⟨-a.x, -a.y⟩⟩

/-- The numeric branch of `__mul__` / `__rmul__`: scaling by a scalar. -/
instance [Mul α] : SMul α (TinyVector α) :=
  ⟨fun c v => ⟨c * v.x, c * v.y⟩⟩

end TinyVector

/-- Exceptions the embedded fragments of the script can raise. -/
inductive PyError where
  | notImplementedError
  | zeroDivisionError
deriving DecidableEq, Repr

/-- A Python value handed to `TinyVector.__mul__` / `__truediv__` as the
right operand: an `int`, a `float`, another `TinyVector`, or anything else
(represented by a string value). -/
inductive Operand (α : Type) where
  | int (n : ℤ)
  | float (r : α)
  | vector (v : TinyVector α)
  | other (s : String)
deriving DecidableEq, Repr

/-- `isinstance(other, (int, float))`. -/
def Operand.isNumeric {α : Type} : Operand α → Bool
  | .int _ => true
  | .float _ => true
  | _ => false

namespace TinyVector

variable {α : Type}

/-- `TinyVector.__mul__`: scales both components for an `int` or `float`
operand, raises `NotImplementedError` otherwise. The receiver is never
mutated (all embedded operations build a new vector). -/
def mul [Field α] (v : TinyVector α) : Operand α → Except PyError (TinyVector α)
  | .int n => .ok ⟨v.x * (n : α), v.y * (n : α)⟩
  | .float r => .ok ⟨v.x * r, v.y * r⟩
  | _ => .error .notImplementedError

/-- `TinyVector.__truediv__`: divides both components for an `int` or
`float` operand (Python raises `ZeroDivisionError` on a zero divisor),
raises `NotImplementedError` otherwise. -/
def truediv [Field α] [DecidableEq α] (v : TinyVector α) :
    Operand α → Except PyError (TinyVector α)
  | .int n => if n = 0 then .error .zeroDivisionError
      else .ok ⟨v.x / (n : α), v.y / (n : α)⟩
  | .float r => if r = 0 then .error .zeroDivisionError
      else .ok ⟨v.x / r, v.y / r⟩
  | _ => .error .notImplementedError

end TinyVector

/-- The functions of Python's `math` module that the script uses, passed
explicitly to every embedded function that calls them. -/
structure MathOps (α : Type) where
  pi : α
  sqrt : α → α
  cos : α → α
  sin : α → α

/-- `TinyVector.make_rotation`: counter-clockwise rotation by `angle`
radians, computed with `math.cos` and `math.sin` of the ambient `MathOps`. -/
def TinyVector.make_rotation [Field α] (ops : MathOps α) (v : TinyVector α)
    (angle : α) : TinyVector α :=
  ⟨ops.cos angle * v.x - ops.sin angle * v.y,
   ops.sin angle * v.x + ops.cos angle * v.y⟩

/-- The `BoardConfig` dataclass: every derived geometric constant the
renderer reads. Numeric fields are `α`-valued, colors and the font family
are strings, counts are integers. -/
structure BoardConfig (α : Type) where
  board_width_cm : α
  board_height_cm : α
  board_width : α
  board_height : α
  board_cut_margin : α
  line_width_max_to_cut : α
  line_width_min_to_engrave : α
  board_color : String
  hexagon_width : α
  hexagon_side : α
  hexagon_height : α
  hexagon_padding : α
  hexagon_line_width : α
  hexagon_line_color : String
  hexagon_opacity : α
  hexagon_vertex_count : ℕ
  hexagon_side_angle : α
  origin : TinyVector α
  unit_x : TinyVector α
  unit_y : TinyVector α
  unit_u : TinyVector α
  unit_v : TinyVector α
  label_color : String
  label_font_family : String
  label_font_size : ℤ
  label_vertical_shift : TinyVector α
  label_horizontal_shift : TinyVector α

/-- A `Hexagon` instance: the fields listed in the class's `__slots__`.
`label_side` is `none` for the untagged default (the Python default argument
is the integer `0`, which is neither `Side.WEST` nor `Side.EAST`; no cell is
ever created with `label_side=None`). `index` is `None` until
`__create_all_sorted_hexagons` assigns it. -/
structure Hexagon (α : Type) where
  name : String
  position_uv : ℤ × ℤ
  ring : ℤ
  label_side : Option Side
  index : Option ℕ
  center : TinyVector α
deriving DecidableEq, Repr

/-- The class-level mutable state of `Hexagon`: the two registries, the
sorted list, the layout, the init flag, the `all` shortcut attribute, and
the neighbour-step arrays created by `__create_delta_u_and_v`. -/
structure HexagonState (α : Type) where
  all_sorted_hexagons : List (Hexagon α)
  init_done : Bool
  layout : List (ℕ × List String)
  name_to_hexagon : List (String × Hexagon α)
  position_uv_to_hexagon : List ((ℤ × ℤ) × Hexagon α)
  all : Option (List (Hexagon α))
  delta_u : List ℤ
  delta_v : List ℤ
deriving DecidableEq

/-- Python dict access `d[k]` on an insertion-ordered association list with
unique keys (first match). -/
def dictGet {κ β : Type} [DecidableEq κ] (k : κ) : List (κ × β) → Option β
  | [] => none
  | kv :: rest => if kv.1 = k then some kv.2 else dictGet k rest

namespace Hexagon

variable {α : Type}

/-- The class body's initial attribute values: empty registries, no layout,
`__init_done = False`, `all = None`, and no delta arrays yet. -/
def startState : HexagonState α :=
  ⟨[], false, [], [], [], none, [], []⟩

/-- `Hexagon.__init__`: asserts the name and position are fresh and the name
has two characters, registers the new cell in both dicts and computes its
center from the board configuration. A failed assert is `none`. -/
def register [Field α] (cfg : BoardConfig α) (s : HexagonState α)
    (name : String) (position_uv : ℤ × ℤ) (ring : ℤ) (label_side : Option Side) :
    Option (HexagonState α) :=
  if (dictGet name s.name_to_hexagon).isSome then none
  else if (dictGet position_uv s.position_uv_to_hexagon).isSome then none
  else if name.length = 2 then
    let center := cfg.origin + cfg.hexagon_width •
      (((position_uv.1 : α)) • cfg.unit_u + ((position_uv.2 : α)) • cfg.unit_v)
    let h : Hexagon α := ⟨name, position_uv, ring, label_side, none, center⟩
    some { s with name_to_hexagon := s.name_to_hexagon ++ [(name, h)],
                  position_uv_to_hexagon := s.position_uv_to_hexagon ++ [(position_uv, h)] }
  else none

/-- The 49 `Hexagon(...)` creation calls of `__create_hexagons`, in source
order: name, axial position `(u, v)`, ring, label side. -/
def creation_data : List (String × (ℤ × ℤ) × ℤ × Option Side) :=
  [ ("a1", (-1, -3), 4, some Side.WEST),
    ("a2", (0, -3), 3, none),
    ("a3", (1, -3), 3, none),
    ("a4", (2, -3), 3, none),
    ("a5", (3, -3), 3, none),
    ("a6", (4, -3), 4, some Side.EAST),
    ("b1", (-2, -2), 4, some Side.WEST),
    ("b2", (-1, -2), 3, none),
    ("b3", (0, -2), 2, none),
    ("b4", (1, -2), 2, none),
    ("b5", (2, -2), 2, none),
    ("b6", (3, -2), 3, none),
    ("b7", (4, -2), 4, some Side.EAST),
    ("c1", (-3, -1), 4, some Side.WEST),
    ("c2", (-2, -1), 3, none),
    ("c3", (-1, -1), 2, none),
    ("c4", (0, -1), 1, none),
    ("c5", (1, -1), 1, none),
    ("c6", (2, -1), 2, none),
    ("c7", (3, -1), 3, none),
    ("c8", (4, -1), 4, some Side.EAST),
    ("d1", (-3, 0), 3, some Side.WEST),
    ("d2", (-2, 0), 2, none),
    ("d3", (-1, 0), 1, none),
    ("d4", (0, 0), 0, none),
    ("d5", (1, 0), 1, none),
    ("d6", (2, 0), 2, none),
    ("d7", (3, 0), 3, some Side.EAST),
    ("e1", (-4, 1), 4, some Side.WEST),
    ("e2", (-3, 1), 3, none),
    ("e3", (-2, 1), 2, none),
    ("e4", (-1, 1), 1, none),
    ("e5", (0, 1), 1, none),
    ("e6", (1, 1), 2, none),
    ("e7", (2, 1), 3, none),
    ("e8", (3, 1), 4, some Side.EAST),
    ("f1", (-4, 2), 4, some Side.WEST),
    ("f2", (-3, 2), 3, none),
    ("f3", (-2, 2), 2, none),
    ("f4", (-1, 2), 2, none),
    ("f5", (0, 2), 2, none),
    ("f6", (1, 2), 3, none),
    ("f7", (2, 2), 4, some Side.EAST),
    ("g1", (-4, 3), 4, some Side.WEST),
    ("g2", (-3, 3), 3, none),
    ("g3", (-2, 3), 3, none),
    ("g4", (-1, 3), 3, none),
    ("g5", (0, 3), 3, none),
    ("g6", (1, 3), 4, some Side.EAST) ]

/-- `Hexagon.__create_hexagons`: runs the 49 creation calls in order. -/
def create_hexagons [Field α] (cfg : BoardConfig α) (s : HexagonState α) :
    Option (HexagonState α) :=
  creation_data.foldlM
    (fun st row => register cfg st row.1 row.2.1 row.2.2.1 row.2.2.2) s

/-- Lexicographic comparison of character lists by code point, as Python
compares strings. -/
def chars_le : List Char → List Char → Bool
  | [], _ => true
  | _ :: _, [] => false
  | a :: as, b :: bs =>
      if a.val.toNat < b.val.toNat then true
      else if b.val.toNat < a.val.toNat then false
      else chars_le as bs

/-- Python's string comparison. -/
def str_le (a b : String) : Bool :=
  chars_le a.data b.data

/-- Insertion step of the sort used for `sorted(...keys())`. -/
def insert_sorted (x : String) : List String → List String
  | [] => [x]
  | y :: ys => if str_le x y then x :: y :: ys else y :: insert_sorted x ys

/-- `sorted(...)` on a list of strings (lexicographic, as in Python). -/
def sorted_strings (l : List String) : List String :=
  l.foldr insert_sorted []

/-- The index assignment of `__create_all_sorted_hexagons`: a cell listed
in `names` gets its position there as `index`. -/
def assign_index (names : List String) (h : Hexagon α) : Hexagon α :=
  match names.findIdx? (fun n => n == h.name) with
  | some i => { h with index := some i }
  | none => h

/-- `sorted(Hexagon.__name_to_hexagon.keys())`. -/
def state_sorted_names (s : HexagonState α) : List String :=
  sorted_strings (s.name_to_hexagon.map Prod.fst)

/-- The sorted cell list of `__create_all_sorted_hexagons`: the registered
cells listed in name order, each with its index assigned. -/
def state_sorted_cells (s : HexagonState α) : List (Hexagon α) :=
  ((state_sorted_names s).filterMap fun n => dictGet n s.name_to_hexagon).map
    (assign_index (state_sorted_names s))

/-- `Hexagon.__create_all_sorted_hexagons`: lists the registered cells in
name order, assigns each its list position as `index`, and sets the `all`
shortcut to the sorted list. Python assigns `index` by mutating the shared
cell objects, so the assignment is also visible through both registries;
the embedding applies the same update to every copy. -/
def create_all_sorted_hexagons (s : HexagonState α) : HexagonState α :=
  { s with all_sorted_hexagons := state_sorted_cells s,
           name_to_hexagon := s.name_to_hexagon.map fun kv =>
             (kv.1, assign_index (state_sorted_names s) kv.2),
           position_uv_to_hexagon := s.position_uv_to_hexagon.map fun kv =>
             (kv.1, assign_index (state_sorted_names s) kv.2),
           all := some (state_sorted_cells s) }

/-- The rows of `Hexagon.__create_layout`, in source order. -/
def layout_rows : List (ℕ × List String) :=
  [ (1, ["g1", "g2", "g3", "g4", "g5", "g6"]),
    (0, ["f1", "f2", "f3", "f4", "f5", "f6", "f7"]),
    (1, ["e1", "e2", "e3", "e4", "e5", "e6", "e7", "e8"]),
    (0, ["d1", "d2", "d3", "d4", "d5", "d6", "d7"]),
    (1, ["c1", "c2", "c3", "c4", "c5", "c6", "c7", "c8"]),
    (0, ["b1", "b2", "b3", "b4", "b5", "b6", "b7"]),
    (1, ["a1", "a2", "a3", "a4", "a5", "a6"]) ]

/-- `Hexagon.__create_layout`. -/
def create_layout (s : HexagonState α) : HexagonState α :=
  { s with layout := layout_rows }

/-- The `__delta_u` array of `__create_delta_u_and_v`. -/
def du : List ℤ := [1, 1, 0, -1, -1, 0]

/-- The `__delta_v` array of `__create_delta_u_and_v`. -/
def dv : List ℤ := [0, -1, -1, 0, 1, 1]

/-- `Hexagon.__create_delta_u_and_v`. -/
def create_delta_u_and_v (s : HexagonState α) : HexagonState α :=
  { s with delta_u := du, delta_v := dv }

/-- `Hexagon.init`: lazy one-time construction. A no-op when
`__init_done` is already set. -/
def init [Field α] (cfg : BoardConfig α) (s : HexagonState α) :
    Option (HexagonState α) :=
  if s.init_done then some s
  else
    (create_hexagons cfg s).map fun s1 =>
      let s2 := create_all_sorted_hexagons s1
      let s3 := create_layout s2
      let s4 := create_delta_u_and_v s3
      { s4 with init_done := true }

/-- `Hexagon.reset`: rebinds the five class attributes to fresh empty
values. The `all` shortcut (and the delta arrays) are not touched. -/
def reset (s : HexagonState α) : HexagonState α :=
  { s with all_sorted_hexagons := [], init_done := false, layout := [],
           name_to_hexagon := [], position_uv_to_hexagon := [] }

/-- `Hexagon.get`: name lookup in `__name_to_hexagon` (`none` models the
`KeyError` an absent key raises). -/
def get (s : HexagonState α) (name : String) : Option (Hexagon α) :=
  dictGet name s.name_to_hexagon

/-- `Hexagon.get_all`. -/
def get_all (s : HexagonState α) : List (Hexagon α) :=
  s.all_sorted_hexagons

/-- `Hexagon.get_layout`. -/
def get_layout (s : HexagonState α) : List (ℕ × List String) :=
  s.layout

/-- Subscript access `Hexagon.__position_uv_to_hexagon[p]`. -/
def get_by_position (s : HexagonState α) (p : ℤ × ℤ) : Option (Hexagon α) :=
  dictGet p s.position_uv_to_hexagon

end Hexagon

/-- The state after the module-level `Hexagon.init()` call, as a function of
the board configuration (the initialization from the pristine class state
always succeeds, see `readyState_eq`). -/
def readyState [Field α] (cfg : BoardConfig α) : HexagonState α :=
  (Hexagon.init cfg Hexagon.startState).getD Hexagon.startState

/-! ### Characterization of the initialized catalog

`Hexagon.init` from a pristine state is characterized in closed form:
`builtState` below. The proof is structural (induction over the creation
calls), with the concrete side conditions — distinct names, distinct
positions, two-character names, already-sorted creation order — checked by
`decide` on the creation data. -/

variable {α : Type}

/-- The cell a single creation call of `__create_hexagons` constructs
(before its `index` is assigned). -/
def mkCell [Field α] (cfg : BoardConfig α)
    (r : String × (ℤ × ℤ) × ℤ × Option Side) : Hexagon α :=
  ⟨r.1, r.2.1, r.2.2.1, r.2.2.2, none,
   cfg.origin + cfg.hexagon_width •
     ((r.2.1.1 : α) • cfg.unit_u + (r.2.1.2 : α) • cfg.unit_v)⟩

/-- The cell names in creation order (which is already name-sorted). -/
def catalog_names : List String :=
  Hexagon.creation_data.map fun r => r.1

/-- A creation-call cell with its index assigned. -/
def indexedCell [Field α] (cfg : BoardConfig α)
    (r : String × (ℤ × ℤ) × ℤ × Option Side) : Hexagon α :=
  Hexagon.assign_index catalog_names (mkCell cfg r)

/-- The initialized catalog in closed form. -/
def builtCells [Field α] (cfg : BoardConfig α) : List (Hexagon α) :=
  Hexagon.creation_data.map (indexedCell cfg)

/-- The initialized class state in closed form. -/
def builtState [Field α] (cfg : BoardConfig α) : HexagonState α :=
  ⟨builtCells cfg, true, Hexagon.layout_rows,
   Hexagon.creation_data.map fun r => (r.1, indexedCell cfg r),
   Hexagon.creation_data.map fun r => (r.2.1, indexedCell cfg r),
   some (builtCells cfg), Hexagon.du, Hexagon.dv⟩

/-! ### The hexagonal metric

`__create_delta_u_and_v` lists the six axial neighbour steps. `hex_steps`
pairs them; `ReachesIn n p` says a walk of exactly `n` such steps leads from
the center `(0, 0)` to `p`, and `is_graph_distance p k` that `k` is the
length of a shortest such walk. `hex_distance` is the closed formula for
the hexagonal graph distance on the axial lattice. -/

/-- The six neighbour steps `(delta_u[i], delta_v[i])` of the source. -/
def hex_steps : List (ℤ × ℤ) := Hexagon.du.zip Hexagon.dv

/-- `ReachesIn n p`: some walk of exactly `n` neighbour steps goes from
`(0, 0)` to `p`. -/
def ReachesIn : ℕ → ℤ × ℤ → Prop
  | 0, p => p = (0, 0)
  | n + 1, p => ∃ d ∈ hex_steps, ReachesIn n (p.1 - d.1, p.2 - d.2)

def reachesInDec : (n : ℕ) → (p : ℤ × ℤ) → Decidable (ReachesIn n p)
  | 0, p => by unfold ReachesIn; infer_instance
  | n + 1, p => by
      unfold ReachesIn
      letI : DecidablePred fun d : ℤ × ℤ => ReachesIn n (p.1 - d.1, p.2 - d.2) :=
        fun d => reachesInDec n (p.1 - d.1, p.2 - d.2)
      infer_instance

instance (n : ℕ) (p : ℤ × ℤ) : Decidable (ReachesIn n p) := reachesInDec n p

/-- `k` is the hexagonal graph distance of `p` from the center: reachable in
`k` steps and in no fewer. -/
def is_graph_distance (p : ℤ × ℤ) (k : ℕ) : Prop :=
  ReachesIn k p ∧ ∀ j < k, ¬ ReachesIn j p

/-- Closed formula for the hexagonal graph distance on the axial lattice. -/
def hex_distance (p : ℤ × ℤ) : ℤ :=
  (|p.1| + |p.2| + |p.1 + p.2|) / 2

def graphDistanceDec (p : ℤ × ℤ) (k : ℕ) : Decidable (is_graph_distance p k) := by
  unfold is_graph_distance
  infer_instance

instance (p : ℤ × ℤ) (k : ℕ) : Decidable (is_graph_distance p k) :=
  graphDistanceDec p k

/-! ### The renderer

`drawsvg` primitives are modelled as inert constructors recording the
arguments the script passes (`draw.Rectangle`, `draw.Lines`, `draw.Line`,
`draw.Text`, and a radial-gradient fill with its stops); `board.append`
becomes list concatenation, so a drawing is the list of appended elements
in order. -/

/-- A fill argument: nothing, a plain color, or a `draw.RadialGradient`
with its stops `(offset, color, opacity)`. -/
inductive Fill (α : Type) where
  | none
  | color (c : String)
  | radialGradient (cx cy r : α) (stops : List (α × String × α))
deriving DecidableEq

/-- An element appended to the drawing. -/
inductive Element (α : Type) where
  | rectangle (x y w h : α) (fill : Fill α) (stroke : Option String)
      (stroke_width : Option α)
  | lines (data : List α) (fill : Fill α) (fill_opacity : Option α)
      (stroke : String) (stroke_width : α) (close : Bool)
  | line (data : List α) (stroke : String) (stroke_width : α)
  | text (text : String) (font_size : ℤ) (font_family : String) (x y : α)
      (center : Bool) (fill : String)
deriving DecidableEq

/-- Whether an element is a `draw.Text`. -/
def Element.isText {α : Type} : Element α → Bool
  | .text .. => true
  | _ => false

/-- The text elements of a drawing, in order. -/
def svgTexts {α : Type} (es : List (Element α)) : List (Element α) :=
  es.filter Element.isText

/-- The keyword arguments of `draw_board`. -/
structure DrawOptions (α : Type) where
  scale_factor : α
  with_all_labels : Bool
  without_labels : Bool
  with_decoration : Bool
  do_rendering : Bool
  with_gradient : Bool
  with_opacity : Bool
  with_texture : Bool
  with_concentrated_texture : Bool
  with_concentric_hexas : Bool
deriving DecidableEq

/-- TROTEC laser color constants of the source. -/
def COLOR_TO_ENGRAVE : String := "rgb(0,0,0)"

def COLOR_TO_SCORE : String := "rgb(255,0,0)"

def COLOR_TO_CUT_1 : String := "rgb(0,0,255)"

def COLOR_TO_CUT_2 : String := "rgb(51,102,153)"

variable {α : Type}

/-- The outer rectangle of `draw_board`: a filled board-color rectangle when
rendering, an inset white rectangle with the cut stroke otherwise. -/
def outer_rectangle [Field α] (cfg : BoardConfig α) (opts : DrawOptions α) :
    Element α :=
  if opts.do_rendering then
    Element.rectangle (-(cfg.board_width / 2)) (-(cfg.board_height / 2))
      cfg.board_width cfg.board_height (Fill.color cfg.board_color) none none
  else
    Element.rectangle (-(cfg.board_width / 2) + cfg.board_cut_margin)
      (-(cfg.board_height / 2) + cfg.board_cut_margin)
      (cfg.board_width - 2 * cfg.board_cut_margin)
      (cfg.board_height - 2 * cfg.board_cut_margin)
      (Fill.color "white") (some COLOR_TO_CUT_1) (some cfg.line_width_max_to_cut)

/-- The six polygon vertices of a cell, stepping around the unit circle at
60 degree increments offset by a half step, scaled by the padding-adjusted
hexagon radius and centered at the cell's center. -/
def hexagon_vertices [Field α] (ops : MathOps α) (cfg : BoardConfig α)
    (h : Hexagon α) : List (TinyVector α) :=
  let hexagon_scale := 1 - cfg.hexagon_padding / cfg.hexagon_width
  (List.range cfg.hexagon_vertex_count).map fun vertex_index =>
    let vertex_angle := ((1 : α) / 2 + (vertex_index : α)) * cfg.hexagon_side_angle
    h.center
      + (hexagon_scale * cfg.hexagon_side * ops.cos vertex_angle) • cfg.unit_x
      + (hexagon_scale * cfg.hexagon_side * ops.sin vertex_angle) • cfg.unit_y

/-- The flat coordinate list `[x0, y0, x1, y1, ...]` a vertex list is passed
to `draw.Lines` as. -/
def vertex_data [Field α] (vs : List (TinyVector α)) : List α :=
  vs.flatMap fun v => [v.x, v.y]

/-- The cell polygon element: radial-gradient fill when `with_gradient`,
flat fill otherwise; opacity halved on odd rings. -/
def hexagon_element [Field α] (ops : MathOps α) (cfg : BoardConfig α)
    (opts : DrawOptions α) (h : Hexagon α) : Element α :=
  let verts := hexagon_vertices ops cfg h
  let hexagon_scale := 1 - cfg.hexagon_padding / cfg.hexagon_width
  let hexagon_opacity := cfg.hexagon_opacity * (if h.ring % 2 = 0 then 1 else 1 / 2)
  if opts.with_gradient then
    Element.lines (vertex_data verts)
      (Fill.radialGradient h.center.x h.center.y (hexagon_scale * cfg.hexagon_side)
        [(0, COLOR_TO_ENGRAVE, hexagon_opacity * 0), (1, COLOR_TO_ENGRAVE, hexagon_opacity * 1)])
      none cfg.hexagon_line_color cfg.hexagon_line_width true
  else
    Element.lines (vertex_data verts)
      (if h.ring % 2 = 1 then Fill.none else Fill.color "black")
      (some (if opts.with_opacity then hexagon_opacity * (1 / 2) else 0))
      cfg.hexagon_line_color (cfg.hexagon_line_width * 2) true

/-- `draw_concentric_hexas`: `hexa_count + 1` shrinking hexagon outlines. -/
def draw_concentric_hexas [Field α] (ops : MathOps α) (cfg : BoardConfig α)
    (hexagon_center : TinyVector α) (hexagon_vertices : List (TinyVector α))
    (hexa_count : ℕ) (hexa_scale_min hexa_scale_max : α) : List (Element α) :=
  let _ := hexagon_vertices
  let hexagon_scale := 1 - cfg.hexagon_padding / cfg.hexagon_width
  let hexagon_effective_side := hexagon_scale * cfg.hexagon_side
  (List.range (hexa_count + 1)).map fun hexa_index =>
    let s := (hexa_index : α) / (hexa_count : α)
    let fs := s ^ 2
    let hexa_scale := fs * hexa_scale_min + (1 - fs) * hexa_scale_max
    let verts := (List.range 6).map fun vertex_index =>
      let vertex_angle := ((vertex_index : α) + 1 / 2) * 2 * ops.pi / 6
      hexagon_center
        + (hexa_scale * hexagon_effective_side * ops.cos vertex_angle) • cfg.unit_x
        + (hexa_scale * hexagon_effective_side * ops.sin vertex_angle) • cfg.unit_y
    Element.lines (vertex_data verts) Fill.none (some 0)
      cfg.hexagon_line_color cfg.hexagon_line_width true

/-- `draw_concentrated_texture`: the rejection-sampling loop (random border
points, beta-distributed position, optional masking radius) is abstracted
by the list of accepted segment endpoints; each accepted segment is drawn
as one `draw.Line`. -/
def draw_concentrated_texture [Field α] (cfg : BoardConfig α)
    (segments : List (TinyVector α × TinyVector α)) : List (Element α) :=
  segments.map fun s =>
    Element.line [s.1.x, s.1.y, s.2.x, s.2.y]
      cfg.hexagon_line_color cfg.hexagon_line_width

/-- `draw_uniform_texture`: like `draw_concentrated_texture`, the sampling
loop (uniform border points, optional masking radius) is abstracted by the
accepted segments, each drawn as one `draw.Line`. -/
def draw_uniform_texture [Field α] (cfg : BoardConfig α)
    (segments : List (TinyVector α × TinyVector α)) : List (Element α) :=
  segments.map fun s =>
    Element.line [s.1.x, s.1.y, s.2.x, s.2.y]
      cfg.hexagon_line_color cfg.hexagon_line_width

/-- `draw_gradient_texture`: random side and beta-distributed position along
the side-to-center segment, abstracted by the chosen segments, each drawn
as one `draw.Line`. -/
def draw_gradient_texture [Field α] (cfg : BoardConfig α)
    (segments : List (TinyVector α × TinyVector α)) : List (Element α) :=
  segments.map fun s =>
    Element.line [s.1.x, s.1.y, s.2.x, s.2.y]
      cfg.hexagon_line_color cfg.hexagon_line_width

/-- The cells whose even-ring decorating polygon has 14 sides. -/
def special_names : List String :=
  ["g1", "g6", "a1", "a6", "e1", "e3", "e6", "e8", "c1", "c3", "c6", "c8", "d4"]

/-- The vertices of the even-ring decorating polygon (scale 0.70). -/
def decorater_polygon_vertices [Field α] (ops : MathOps α) (cfg : BoardConfig α)
    (center : TinyVector α) (side_count : ℕ) : List (TinyVector α) :=
  (List.range side_count).map fun vertex_index =>
    let vertex_angle := (vertex_index : α) * 2 * ops.pi / (side_count : α)
    center
      + ((7 / 10 : α) * cfg.hexagon_side * ops.cos vertex_angle) • cfg.unit_x
      + ((7 / 10 : α) * cfg.hexagon_side * ops.sin vertex_angle) • cfg.unit_y

/-- The small rotated hexagon built on one edge of the decorating polygon:
the edge vector rotated by -60 degrees five times, each new vertex the
previous one plus the rotated vector, closed back to the start. -/
def rotating_polygon_vertices [Field α] (ops : MathOps α)
    (vertex_1 vertex_2 : TinyVector α) : List (TinyVector α) :=
  let start : List (TinyVector α) × TinyVector α × TinyVector α :=
    ([vertex_1, vertex_1 + (vertex_2 - vertex_1)],
     vertex_1 + (vertex_2 - vertex_1), vertex_2 - vertex_1)
  let step := fun (acc : List (TinyVector α) × TinyVector α × TinyVector α) (_ : ℕ) =>
    let vector := TinyVector.make_rotation ops acc.2.2 ((-2) * ops.pi / 6)
    (acc.1 ++ [acc.2.1 + vector], acc.2.1 + vector, vector)
  let res := (List.range 5).foldl step start
  res.1 ++ [vertex_1]

/-- The decoration drawn on odd-ring cells (the `elif` chain of the source,
defaulting to the uniform texture). `rnd` supplies the accepted random
segments per cell name and texture call site. -/
def odd_ring_decoration [Field α] (ops : MathOps α) (cfg : BoardConfig α)
    (opts : DrawOptions α)
    (rnd : String → ℕ → List (TinyVector α × TinyVector α)) (h : Hexagon α) :
    List (Element α) :=
  if opts.with_concentric_hexas then
    draw_concentric_hexas ops cfg h.center (hexagon_vertices ops cfg h) 12 (1 / 4) 1
  else if opts.with_concentrated_texture then
    draw_concentrated_texture cfg (rnd h.name 0)
  else if opts.with_texture then
    draw_gradient_texture cfg (rnd h.name 0)
  else
    draw_uniform_texture cfg (rnd h.name 0)

/-- The decoration drawn on even-ring cells: the 12- or 14-sided decorating
polygon, one small rotated hexagon per edge, then the optional texture
layers (independent `if`s in the source). -/
def even_ring_decoration [Field α] (ops : MathOps α) (cfg : BoardConfig α)
    (opts : DrawOptions α)
    (rnd : String → ℕ → List (TinyVector α × TinyVector α)) (h : Hexagon α) :
    List (Element α) :=
  let side_count := if h.name ∈ special_names then 14 else 12
  let pverts := decorater_polygon_vertices ops cfg h.center side_count
  let poly1 := Element.lines (vertex_data pverts) Fill.none (some 0)
    cfg.hexagon_line_color cfg.hexagon_line_width true
  let rotating := (pverts.zip (pverts.drop 1 ++ pverts.take 1)).map fun vv =>
    Element.lines (vertex_data (rotating_polygon_vertices ops vv.1 vv.2))
      Fill.none (some 0) cfg.hexagon_line_color cfg.hexagon_line_width true
  poly1 :: rotating
    ++ (if opts.with_concentric_hexas then
          draw_concentric_hexas ops cfg h.center (hexagon_vertices ops cfg h) 1 (93 / 100) 1
        else [])
    ++ (if opts.with_concentrated_texture then
          draw_concentrated_texture cfg (rnd h.name 1) else [])
    ++ (if opts.with_texture then
          draw_uniform_texture cfg (rnd h.name 2) ++ draw_gradient_texture cfg (rnd h.name 3)
        else [])

/-- The label position of a cell: none when `without_labels`; center plus
the vertical shift when `with_all_labels`; otherwise center minus/plus the
horizontal shift for a west/east tag and nothing for any other tag. (The
source guards on `label_side is not None`, which is always true: the
untagged default is the integer `0`.) -/
def label_location [Field α] (cfg : BoardConfig α) (opts : DrawOptions α)
    (h : Hexagon α) : Option (TinyVector α) :=
  if opts.without_labels then none
  else if opts.with_all_labels then some (h.center + cfg.label_vertical_shift)
  else
    match h.label_side with
    | some Side.WEST => some (h.center - cfg.label_horizontal_shift)
    | some Side.EAST => some (h.center + cfg.label_horizontal_shift)
    | _ => none

/-- The `draw.Text` appended for a cell, when it has a label position. -/
def label_elements [Field α] (cfg : BoardConfig α) (opts : DrawOptions α)
    (h : Hexagon α) : List (Element α) :=
  match label_location cfg opts h with
  | none => []
  | some loc =>
      [Element.text h.name cfg.label_font_size cfg.label_font_family
        loc.x loc.y true cfg.label_color]

/-- The per-cell body of `draw_board`'s loop: the cell polygon, the
decoration (odd-ring branch, then even-ring branch, each guarded by
`with_decoration` and the ring parity), then the optional label. -/
def draw_board_hexagon [Field α] (ops : MathOps α) (cfg : BoardConfig α)
    (opts : DrawOptions α)
    (rnd : String → ℕ → List (TinyVector α × TinyVector α)) (h : Hexagon α) :
    List (Element α) :=
  hexagon_element ops cfg opts h
    :: (if opts.with_decoration = true ∧ h.ring % 2 = 1 then
          odd_ring_decoration ops cfg opts rnd h else [])
    ++ (if opts.with_decoration = true ∧ h.ring % 2 = 0 then
          even_ring_decoration ops cfg opts rnd h else [])
    ++ label_elements cfg opts h

/-- `draw_board` as the list of elements appended to the drawing: the outer
rectangle, then the per-cell elements for each cell of `Hexagon.all` (the
drawing cannot be produced while `Hexagon.all` is still `None`). -/
def draw_board [Field α] (ops : MathOps α) (cfg : BoardConfig α)
    (opts : DrawOptions α)
    (rnd : String → ℕ → List (TinyVector α × TinyVector α))
    (s : HexagonState α) : Option (List (Element α)) :=
  s.all.map fun hexagons =>
    outer_rectangle cfg opts :: hexagons.flatMap (draw_board_hexagon ops cfg opts rnd)

/-! ### Concrete test instances over `ℚ`

Used by the witness and counterexample theorems: an arbitrary rational
`math` record and board configuration (the catalog facts below hold for
every configuration, so any concrete one will do). -/

def testOps : MathOps ℚ :=
  ⟨3, fun x => x, fun _ => 1, fun _ => 0⟩

def testConfig : BoardConfig ℚ :=
  { board_width_cm := 32, board_height_cm := 28,
    board_width := 4096, board_height := 3544, board_cut_margin := 1,
    line_width_max_to_cut := 1, line_width_min_to_engrave := 1,
    board_color := "#BF9B7A",
    hexagon_width := 1, hexagon_side := 1, hexagon_height := 2,
    hexagon_padding := 0, hexagon_line_width := 1,
    hexagon_line_color := "rgb(0,0,0)", hexagon_opacity := 1,
    hexagon_vertex_count := 6, hexagon_side_angle := 1,
    origin := ⟨0, 0⟩, unit_x := ⟨1, 0⟩, unit_y := ⟨0, -1⟩,
    unit_u := ⟨1, 0⟩, unit_v := ⟨0, 1⟩,
    label_color := "rgb(0,0,0)", label_font_family := "Helvetica",
    label_font_size := 10,
    label_vertical_shift := ⟨0, 2⟩, label_horizontal_shift := ⟨3, 0⟩ }

/-- The Python default keyword arguments of `draw_board`. -/
def optsDefault : DrawOptions ℚ :=
  ⟨1, false, false, false, true, true, true, false, false, false⟩

def optsAllLabels : DrawOptions ℚ :=
  { optsDefault with with_all_labels := true }

def optsNoLabels : DrawOptions ℚ :=
  { optsDefault with without_labels := true }

/-- A trivial random-segment oracle: every texture call yields no segment. -/
def testRnd : String → ℕ → List (TinyVector ℚ × TinyVector ℚ) :=
  fun _ _ => []

/-- The creation call of cell `a1`. -/
def rowA1 : String × (ℤ × ℤ) × ℤ × Option Side :=
  ("a1", (-1, -3), 4, some Side.WEST)

/-- Cell `a1` of the test catalog. -/
def hexA1 : Hexagon ℚ :=
  indexedCell testConfig rowA1

/-! ### Vector algebra laws -/

@[simp] theorem add_def [Add α] (a b : TinyVector α) :
    a + b = ⟨a.x + b.x, a.y + b.y⟩ := rfl

@[simp] theorem sub_def [Sub α] (a b : TinyVector α) :
    a - b = ⟨a.x - b.x, a.y - b.y⟩ := rfl

@[simp] theorem smul_def [Mul α] (c : α) (v : TinyVector α) :
    c • v = ⟨c * v.x, c * v.y⟩ := rfl


/-! ### Catalog characterization proofs -/

theorem dictGet_nil {κ β : Type} [DecidableEq κ] (k : κ) :
    dictGet k ([] : List (κ × β)) = none := rfl

theorem dictGet_cons {κ β : Type} [DecidableEq κ] (k : κ) (kv : κ × β)
    (l : List (κ × β)) :
    dictGet k (kv :: l) = if kv.1 = k then some kv.2 else dictGet k l := rfl

theorem dictGet_append_of_none {κ β : Type} [DecidableEq κ] (k : κ)
    (l1 l2 : List (κ × β)) (h : dictGet k l1 = none) :
    dictGet k (l1 ++ l2) = dictGet k l2 := by
  induction l1 with
  | nil => rfl
  | cons kv rest ih =>
      rw [List.cons_append, dictGet_cons]
      rw [dictGet_cons] at h
      by_cases hk : kv.1 = k
      · rw [if_pos hk] at h; cases h
      · rw [if_neg hk] at h ⊢; exact ih h

theorem dictGet_singleton_ne {κ β : Type} [DecidableEq κ] (k k' : κ) (v : β)
    (h : k' ≠ k) : dictGet k [(k', v)] = none := by
  rw [dictGet_cons, if_neg h]; rfl

/-- A successful creation call (the asserts pass). -/
theorem register_some [Field α] (cfg : BoardConfig α) (s : HexagonState α)
    (r : String × (ℤ × ℤ) × ℤ × Option Side)
    (h1 : dictGet r.1 s.name_to_hexagon = none)
    (h2 : dictGet r.2.1 s.position_uv_to_hexagon = none)
    (h3 : r.1.length = 2) :
    Hexagon.register cfg s r.1 r.2.1 r.2.2.1 r.2.2.2 =
      some { s with
        name_to_hexagon := s.name_to_hexagon ++ [(r.1, mkCell cfg r)],
        position_uv_to_hexagon :=
          s.position_uv_to_hexagon ++ [(r.2.1, mkCell cfg r)] } := by
  unfold Hexagon.register
  rw [h1, h2]
  simp [h3, mkCell]

/-- The creation fold succeeds on rows with fresh, distinct names and
positions, and appends one registry entry per row to each table. -/
theorem create_fold [Field α] (cfg : BoardConfig α) :
    ∀ (rows : List (String × (ℤ × ℤ) × ℤ × Option Side)) (s : HexagonState α),
      (∀ r ∈ rows, dictGet r.1 s.name_to_hexagon = none) →
      (∀ r ∈ rows, dictGet r.2.1 s.position_uv_to_hexagon = none) →
      (rows.map fun r => r.1).Nodup →
      (rows.map fun r => r.2.1).Nodup →
      (∀ r ∈ rows, r.1.length = 2) →
      rows.foldlM
          (fun st row => Hexagon.register cfg st row.1 row.2.1 row.2.2.1 row.2.2.2) s =
        some { s with
          name_to_hexagon :=
            s.name_to_hexagon ++ rows.map fun r => (r.1, mkCell cfg r),
          position_uv_to_hexagon :=
            s.position_uv_to_hexagon ++ rows.map fun r => (r.2.1, mkCell cfg r) }
  | [], s, _, _, _, _, _ => by simp
  | row :: rest, s, hn, hp, ndn, ndp, hl => by
      rw [List.foldlM_cons,
        register_some cfg s row
          (hn row (List.mem_cons_self row rest))
          (hp row (List.mem_cons_self row rest))
          (hl row (List.mem_cons_self row rest))]
      rw [List.map_cons] at ndn
      rw [List.map_cons] at ndp
      rw [List.nodup_cons] at ndn ndp
      have hbind :
          (some { s with
              name_to_hexagon :=
                s.name_to_hexagon ++ [(row.1, mkCell cfg row)],
              position_uv_to_hexagon :=
                s.position_uv_to_hexagon ++ [(row.2.1, mkCell cfg row)] } >>=
            fun st => rest.foldlM
              (fun st row => Hexagon.register cfg st row.1 row.2.1 row.2.2.1 row.2.2.2) st) =
          rest.foldlM
            (fun st row => Hexagon.register cfg st row.1 row.2.1 row.2.2.1 row.2.2.2)
            { s with
              name_to_hexagon :=
                s.name_to_hexagon ++ [(row.1, mkCell cfg row)],
              position_uv_to_hexagon :=
                s.position_uv_to_hexagon ++ [(row.2.1, mkCell cfg row)] } := rfl
      rw [hbind,
        create_fold cfg rest _
          (fun r hr => by
            have hne : row.1 ≠ r.1 := by
              intro he
              exact ndn.1 (he ▸ List.mem_map_of_mem (fun r => r.1) hr)
            calc dictGet r.1 (s.name_to_hexagon ++ [(row.1, mkCell cfg row)])
                = dictGet r.1 [(row.1, mkCell cfg row)] :=
                  dictGet_append_of_none _ _ _ (hn r (List.mem_cons_of_mem row hr))
              _ = none := dictGet_singleton_ne _ _ _ hne)
          (fun r hr => by
            have hne : row.2.1 ≠ r.2.1 := by
              intro he
              exact ndp.1 (he ▸ List.mem_map_of_mem (fun r => r.2.1) hr)
            calc dictGet r.2.1 (s.position_uv_to_hexagon ++ [(row.2.1, mkCell cfg row)])
                = dictGet r.2.1 [(row.2.1, mkCell cfg row)] :=
                  dictGet_append_of_none _ _ _ (hp r (List.mem_cons_of_mem row hr))
              _ = none := dictGet_singleton_ne _ _ _ hne)
          ndn.2 ndp.2
          (fun r hr => hl r (List.mem_cons_of_mem row hr))]
      simp [List.append_assoc]

/-- `__create_hexagons` from empty registries builds the full tables. -/
theorem create_hexagons_clean [Field α] (cfg : BoardConfig α) (s : HexagonState α)
    (h2 : s.name_to_hexagon = []) (h3 : s.position_uv_to_hexagon = []) :
    Hexagon.create_hexagons cfg s =
      some { s with
        name_to_hexagon := Hexagon.creation_data.map fun r => (r.1, mkCell cfg r),
        position_uv_to_hexagon :=
          Hexagon.creation_data.map fun r => (r.2.1, mkCell cfg r) } := by
  unfold Hexagon.create_hexagons
  rw [create_fold cfg Hexagon.creation_data s
    (fun r _ => by rw [h2]; rfl)
    (fun r _ => by rw [h3]; rfl)
    (by decide) (by decide) (by decide)]
  rw [h2, h3]
  simp

/-- The creation order is already name-sorted. -/
theorem sorted_catalog : Hexagon.sorted_strings catalog_names = catalog_names := by
  decide

theorem filterMap_ext {β γ : Type} (f g : β → Option γ) :
    ∀ (l : List β), (∀ b ∈ l, f b = g b) → l.filterMap f = l.filterMap g
  | [], _ => rfl
  | b :: l, h => by
      rw [List.filterMap_cons, List.filterMap_cons, h b (List.mem_cons_self b l),
        filterMap_ext f g l fun x hx => h x (List.mem_cons_of_mem b hx)]

/-- Looking every key of a duplicate-free table up in order lists exactly
its values in order. -/
theorem filterMap_dictGet {κ β : Type} [DecidableEq κ] :
    ∀ (l : List (κ × β)), (l.map Prod.fst).Nodup →
      (l.map Prod.fst).filterMap (fun k => dictGet k l) = l.map Prod.snd
  | [], _ => rfl
  | kv :: rest, nd => by
      rw [List.map_cons, List.nodup_cons] at nd
      rw [List.map_cons, List.map_cons, List.filterMap_cons]
      have h1 : dictGet kv.1 (kv :: rest) = some kv.2 := by
        rw [dictGet_cons, if_pos rfl]
      rw [h1]
      have h2 : (rest.map Prod.fst).filterMap (fun k => dictGet k (kv :: rest)) =
          (rest.map Prod.fst).filterMap (fun k => dictGet k rest) := by
        refine filterMap_ext _ _ _ fun k hk => ?_
        rw [dictGet_cons, if_neg]
        intro he
        exact nd.1 (he ▸ hk)
      rw [h2, filterMap_dictGet rest nd.2]

/-- Key lookup on a keyed table of values: each value is found under its
own key. -/
theorem dictGet_map_key {κ β : Type} [DecidableEq κ] (key : β → κ) :
    ∀ (l : List β), ((l.map key).Nodup) →
      ∀ b ∈ l, dictGet (key b) (l.map fun x => (key x, x)) = some b
  | [], _, b, hb => absurd hb (List.not_mem_nil b)
  | x :: l, nd, b, hb => by
      rw [List.map_cons, List.nodup_cons] at nd
      rw [List.map_cons, dictGet_cons]
      rcases List.mem_cons.mp hb with hb | hb
      · subst hb; rw [if_pos rfl]
      · rw [if_neg]
        · exact dictGet_map_key key l nd.2 b hb
        · intro he
          exact nd.1 ((show key x = key b from he) ▸ List.mem_map_of_mem key hb)

theorem assign_index_name (names : List String) (h : Hexagon α) :
    (Hexagon.assign_index names h).name = h.name := by
  unfold Hexagon.assign_index
  cases names.findIdx? (fun n => n == h.name) <;> rfl

theorem assign_index_position (names : List String) (h : Hexagon α) :
    (Hexagon.assign_index names h).position_uv = h.position_uv := by
  unfold Hexagon.assign_index
  cases names.findIdx? (fun n => n == h.name) <;> rfl

theorem assign_index_ring (names : List String) (h : Hexagon α) :
    (Hexagon.assign_index names h).ring = h.ring := by
  unfold Hexagon.assign_index
  cases names.findIdx? (fun n => n == h.name) <;> rfl

theorem assign_index_label_side (names : List String) (h : Hexagon α) :
    (Hexagon.assign_index names h).label_side = h.label_side := by
  unfold Hexagon.assign_index
  cases names.findIdx? (fun n => n == h.name) <;> rfl

theorem assign_index_center (names : List String) (h : Hexagon α) :
    (Hexagon.assign_index names h).center = h.center := by
  unfold Hexagon.assign_index
  cases names.findIdx? (fun n => n == h.name) <;> rfl

/-- The key list of the freshly created name table. -/
theorem created_keys [Field α] (cfg : BoardConfig α) :
    ((Hexagon.creation_data.map fun r => (r.1, mkCell cfg r)).map Prod.fst) =
      catalog_names := by
  rw [List.map_map]; rfl

theorem state_sorted_names_on [Field α] (cfg : BoardConfig α) (s : HexagonState α)
    (hN : s.name_to_hexagon = Hexagon.creation_data.map fun r => (r.1, mkCell cfg r)) :
    Hexagon.state_sorted_names s = catalog_names := by
  unfold Hexagon.state_sorted_names
  rw [hN, created_keys]
  exact sorted_catalog

/-- The duplicate-freeness of the catalog's names, pushed to the data. -/
theorem catalog_names_nodup : catalog_names.Nodup := by decide

theorem state_sorted_cells_on [Field α] (cfg : BoardConfig α) (s : HexagonState α)
    (hN : s.name_to_hexagon = Hexagon.creation_data.map fun r => (r.1, mkCell cfg r)) :
    Hexagon.state_sorted_cells s = builtCells cfg := by
  unfold Hexagon.state_sorted_cells
  rw [state_sorted_names_on cfg s hN, hN]
  have e1 : catalog_names.filterMap
      (fun n => dictGet n (Hexagon.creation_data.map fun r => (r.1, mkCell cfg r))) =
      (Hexagon.creation_data.map fun r => (r.1, mkCell cfg r)).map Prod.snd := by
    have := filterMap_dictGet (Hexagon.creation_data.map fun r => (r.1, mkCell cfg r))
      (by rw [created_keys]; exact catalog_names_nodup)
    rw [created_keys] at this
    exact this
  rw [e1, List.map_map, List.map_map]
  rfl

theorem create_all_sorted_on [Field α] (cfg : BoardConfig α) (s : HexagonState α)
    (hN : s.name_to_hexagon = Hexagon.creation_data.map fun r => (r.1, mkCell cfg r))
    (hP : s.position_uv_to_hexagon =
      Hexagon.creation_data.map fun r => (r.2.1, mkCell cfg r)) :
    Hexagon.create_all_sorted_hexagons s =
      { s with
        all_sorted_hexagons := builtCells cfg,
        name_to_hexagon := Hexagon.creation_data.map fun r => (r.1, indexedCell cfg r),
        position_uv_to_hexagon :=
          Hexagon.creation_data.map fun r => (r.2.1, indexedCell cfg r),
        all := some (builtCells cfg) } := by
  unfold Hexagon.create_all_sorted_hexagons
  rw [state_sorted_cells_on cfg s hN, state_sorted_names_on cfg s hN, hN, hP,
    List.map_map, List.map_map]
  rfl

/-- `Hexagon.init` from a pristine class state builds `builtState`. -/
theorem init_clean [Field α] (cfg : BoardConfig α) (s : HexagonState α)
    (h1 : s.init_done = false)
    (h2 : s.name_to_hexagon = [])
    (h3 : s.position_uv_to_hexagon = []) :
    Hexagon.init cfg s = some (builtState cfg) := by
  unfold Hexagon.init
  rw [h1]
  simp only [Bool.false_eq_true, if_false]
  rw [create_hexagons_clean cfg s h2 h3]
  rw [Option.map_some']
  rw [create_all_sorted_on cfg _ rfl rfl]
  rfl

/-- The module-level initialization succeeds and yields `readyState`. -/
theorem readyState_eq [Field α] (cfg : BoardConfig α) :
    readyState cfg = builtState cfg := by
  unfold readyState
  rw [init_clean cfg Hexagon.startState rfl rfl rfl]
  rfl

/-! ### Text elements of a drawing -/

@[simp] theorem isText_rectangle [Field α] (x y w h : α) (f : Fill α)
    (st : Option String) (sw : Option α) :
    (Element.rectangle x y w h f st sw).isText = false := rfl

@[simp] theorem isText_lines [Field α] (d : List α) (f : Fill α) (fo : Option α)
    (st : String) (sw : α) (c : Bool) :
    (Element.lines d f fo st sw c).isText = false := rfl

@[simp] theorem isText_line [Field α] (d : List α) (st : String) (sw : α) :
    (Element.line d st sw).isText = false := rfl

@[simp] theorem isText_text [Field α] (t : String) (fs : ℤ) (ff : String)
    (x y : α) (c : Bool) (f : String) :
    (Element.text t fs ff x y c f).isText = true := rfl

theorem svgTexts_nil : svgTexts ([] : List (Element α)) = [] := rfl

theorem svgTexts_cons (e : Element α) (l : List (Element α)) :
    svgTexts (e :: l) = if e.isText then e :: svgTexts l else svgTexts l := by
  simp [svgTexts, List.filter_cons]

theorem svgTexts_append (l1 l2 : List (Element α)) :
    svgTexts (l1 ++ l2) = svgTexts l1 ++ svgTexts l2 := by
  simp [svgTexts, List.filter_append]

theorem svgTexts_eq_nil_of {l : List (Element α)}
    (h : ∀ e ∈ l, e.isText = false) : svgTexts l = [] := by
  simp only [svgTexts, List.filter_eq_nil_iff]
  intro e he
  simp [h e he]

theorem svgTexts_flatMap {β : Type} (f : β → List (Element α)) (l : List β) :
    svgTexts (l.flatMap f) = l.flatMap fun b => svgTexts (f b) := by
  induction l with
  | nil => rfl
  | cons b l ih => simp [List.flatMap_cons, svgTexts_append, ih]

theorem svgTexts_map_no_text {β : Type} (f : β → Element α)
    (hf : ∀ b, (f b).isText = false) (l : List β) :
    svgTexts (l.map f) = [] := by
  induction l with
  | nil => rfl
  | cons b l ih => simp [svgTexts_cons, hf b, ih]

theorem flatMap_singleton_fun {β γ : Type} (f : β → γ) (l : List β) :
    (l.flatMap fun b => [f b]) = l.map f := by
  induction l with
  | nil => rfl
  | cons b l ih => simp [List.flatMap_cons, ih]

theorem flatMap_nil_fun {β γ : Type} (l : List β) :
    (l.flatMap fun _ => ([] : List γ)) = [] := by
  induction l with
  | nil => rfl
  | cons b l ih => simp [List.flatMap_cons, ih]

/-! ### No element of the decoration layers is a text -/

theorem svgTexts_uniform [Field α] (cfg : BoardConfig α)
    (segs : List (TinyVector α × TinyVector α)) :
    svgTexts (draw_uniform_texture cfg segs) = [] := by
  apply svgTexts_map_no_text
  intro b
  rfl

theorem svgTexts_concentrated [Field α] (cfg : BoardConfig α)
    (segs : List (TinyVector α × TinyVector α)) :
    svgTexts (draw_concentrated_texture cfg segs) = [] := by
  apply svgTexts_map_no_text
  intro b
  rfl

theorem svgTexts_gradient [Field α] (cfg : BoardConfig α)
    (segs : List (TinyVector α × TinyVector α)) :
    svgTexts (draw_gradient_texture cfg segs) = [] := by
  apply svgTexts_map_no_text
  intro b
  rfl

theorem svgTexts_concentric [Field α] (ops : MathOps α) (cfg : BoardConfig α)
    (c : TinyVector α) (vs : List (TinyVector α)) (n : ℕ) (smin smax : α) :
    svgTexts (draw_concentric_hexas ops cfg c vs n smin smax) = [] := by
  apply svgTexts_map_no_text
  intro b
  rfl

theorem svgTexts_odd_ring [Field α] (ops : MathOps α) (cfg : BoardConfig α)
    (opts : DrawOptions α) (rnd : String → ℕ → List (TinyVector α × TinyVector α))
    (h : Hexagon α) :
    svgTexts (odd_ring_decoration ops cfg opts rnd h) = [] := by
  unfold odd_ring_decoration
  split_ifs
  · exact svgTexts_concentric ops cfg h.center _ 12 (1 / 4) 1
  · exact svgTexts_concentrated cfg _
  · exact svgTexts_gradient cfg _
  · exact svgTexts_uniform cfg _

theorem svgTexts_even_ring [Field α] (ops : MathOps α) (cfg : BoardConfig α)
    (opts : DrawOptions α) (rnd : String → ℕ → List (TinyVector α × TinyVector α))
    (h : Hexagon α) :
    svgTexts (even_ring_decoration ops cfg opts rnd h) = [] := by
  apply svgTexts_eq_nil_of
  intro e he
  simp only [even_ring_decoration, List.mem_cons, List.mem_append] at he
  rcases he with (((rfl | he) | he) | he) | he
  · rfl
  · obtain ⟨vv, -, rfl⟩ := List.mem_map.mp he
    rfl
  · split at he
    · obtain ⟨i, -, rfl⟩ := List.mem_map.mp he
      rfl
    · exact absurd he (List.not_mem_nil e)
  · split at he
    · obtain ⟨sg, -, rfl⟩ := List.mem_map.mp he
      rfl
    · exact absurd he (List.not_mem_nil e)
  · split at he
    · rcases List.mem_append.mp he with he2 | he2 <;>
        · obtain ⟨sg, -, rfl⟩ := List.mem_map.mp he2
          rfl
    · exact absurd he (List.not_mem_nil e)

theorem isText_hexagon_element [Field α] (ops : MathOps α) (cfg : BoardConfig α)
    (opts : DrawOptions α) (h : Hexagon α) :
    (hexagon_element ops cfg opts h).isText = false := by
  simp only [hexagon_element]
  split <;> rfl

theorem isText_outer_rectangle [Field α] (cfg : BoardConfig α)
    (opts : DrawOptions α) :
    (outer_rectangle cfg opts).isText = false := by
  unfold outer_rectangle
  split <;> rfl

/-- The only text a cell can contribute is its label. -/
theorem svgTexts_draw_board_hexagon [Field α] (ops : MathOps α)
    (cfg : BoardConfig α) (opts : DrawOptions α)
    (rnd : String → ℕ → List (TinyVector α × TinyVector α)) (h : Hexagon α) :
    svgTexts (draw_board_hexagon ops cfg opts rnd h) = label_elements cfg opts h := by
  unfold draw_board_hexagon
  rw [svgTexts_append, svgTexts_append, svgTexts_cons, isText_hexagon_element]
  simp only [Bool.false_eq_true, if_false]
  rw [show svgTexts (if opts.with_decoration = true ∧ h.ring % 2 = 1 then
        odd_ring_decoration ops cfg opts rnd h else []) = [] from by
      split
      · exact svgTexts_odd_ring ops cfg opts rnd h
      · rfl]
  rw [show svgTexts (if opts.with_decoration = true ∧ h.ring % 2 = 0 then
        even_ring_decoration ops cfg opts rnd h else []) = [] from by
      split
      · exact svgTexts_even_ring ops cfg opts rnd h
      · rfl]
  rw [show svgTexts (label_elements cfg opts h) = label_elements cfg opts h from by
      unfold label_elements
      cases label_location cfg opts h <;> rfl]
  rfl

/-- `draw_board` on a state whose `all` shortcut is set. -/
theorem draw_board_some [Field α] (ops : MathOps α) (cfg : BoardConfig α)
    (opts : DrawOptions α)
    (rnd : String → ℕ → List (TinyVector α × TinyVector α))
    (s : HexagonState α) (hexs : List (Hexagon α)) (hs : s.all = some hexs) :
    draw_board ops cfg opts rnd s =
      some (outer_rectangle cfg opts ::
        hexs.flatMap (draw_board_hexagon ops cfg opts rnd)) := by
  unfold draw_board
  rw [hs]
  rfl

/-- The texts of the whole drawing are the per-cell labels, in order. -/
theorem svgTexts_draw_board [Field α] (ops : MathOps α) (cfg : BoardConfig α)
    (opts : DrawOptions α)
    (rnd : String → ℕ → List (TinyVector α × TinyVector α))
    (s : HexagonState α) (hexs : List (Hexagon α)) (hs : s.all = some hexs) :
    (draw_board ops cfg opts rnd s).map svgTexts =
      some (hexs.flatMap fun h => label_elements cfg opts h) := by
  rw [draw_board_some ops cfg opts rnd s hexs hs, Option.map_some']
  rw [svgTexts_cons, isText_outer_rectangle]
  simp only [Bool.false_eq_true, if_false]
  rw [svgTexts_flatMap]
  simp only [svgTexts_draw_board_hexagon]

/-! ### The three label modes -/

theorem label_elements_without [Field α] (cfg : BoardConfig α)
    (opts : DrawOptions α) (h : Hexagon α)
    (hw : opts.without_labels = true) :
    label_elements cfg opts h = [] := by
  unfold label_elements label_location
  rw [hw]
  rfl

theorem label_elements_all [Field α] (cfg : BoardConfig α)
    (opts : DrawOptions α) (h : Hexagon α)
    (hw : opts.without_labels = false) (ha : opts.with_all_labels = true) :
    label_elements cfg opts h =
      [Element.text h.name cfg.label_font_size cfg.label_font_family
        (h.center + cfg.label_vertical_shift).x (h.center + cfg.label_vertical_shift).y
        true cfg.label_color] := by
  unfold label_elements label_location
  rw [hw, ha]
  rfl

theorem label_elements_few [Field α] (cfg : BoardConfig α)
    (opts : DrawOptions α) (h : Hexagon α)
    (hw : opts.without_labels = false) (ha : opts.with_all_labels = false) :
    label_elements cfg opts h =
      match h.label_side with
      | some Side.WEST =>
          [Element.text h.name cfg.label_font_size cfg.label_font_family
            (h.center - cfg.label_horizontal_shift).x
            (h.center - cfg.label_horizontal_shift).y true cfg.label_color]
      | some Side.EAST =>
          [Element.text h.name cfg.label_font_size cfg.label_font_family
            (h.center + cfg.label_horizontal_shift).x
            (h.center + cfg.label_horizontal_shift).y true cfg.label_color]
      | _ => [] := by
  unfold label_elements label_location
  rw [hw, ha]
  simp only [Bool.false_eq_true, if_false]
  rcases h.label_side with _ | side
  · rfl
  · cases side <;> rfl

/-! ### Projections of the built catalog -/

theorem indexedCell_name [Field α] (cfg : BoardConfig α)
    (r : String × (ℤ × ℤ) × ℤ × Option Side) :
    (indexedCell cfg r).name = r.1 := by
  unfold indexedCell
  rw [assign_index_name]
  rfl

theorem indexedCell_position [Field α] (cfg : BoardConfig α)
    (r : String × (ℤ × ℤ) × ℤ × Option Side) :
    (indexedCell cfg r).position_uv = r.2.1 := by
  unfold indexedCell
  rw [assign_index_position]
  rfl

theorem indexedCell_ring [Field α] (cfg : BoardConfig α)
    (r : String × (ℤ × ℤ) × ℤ × Option Side) :
    (indexedCell cfg r).ring = r.2.2.1 := by
  unfold indexedCell
  rw [assign_index_ring]
  rfl

theorem indexedCell_label_side [Field α] (cfg : BoardConfig α)
    (r : String × (ℤ × ℤ) × ℤ × Option Side) :
    (indexedCell cfg r).label_side = r.2.2.2 := by
  unfold indexedCell
  rw [assign_index_label_side]
  rfl

theorem builtCells_length [Field α] (cfg : BoardConfig α) :
    (builtCells cfg).length = 49 := by
  unfold builtCells
  rw [List.length_map]
  rfl

theorem builtCells_names [Field α] (cfg : BoardConfig α) :
    (builtCells cfg).map Hexagon.name = catalog_names := by
  unfold builtCells
  rw [List.map_map,
    show (Hexagon.name ∘ indexedCell cfg) = fun r => r.1 from
      funext fun r => indexedCell_name cfg r]
  rfl

/-- The cell positions in creation order. -/
theorem builtCells_positions [Field α] (cfg : BoardConfig α) :
    (builtCells cfg).map Hexagon.position_uv =
      Hexagon.creation_data.map fun r => r.2.1 := by
  unfold builtCells
  rw [List.map_map,
    show (Hexagon.position_uv ∘ indexedCell cfg) = fun r => r.2.1 from
      funext fun r => indexedCell_position cfg r]

/-- The cell rings in creation order. -/
theorem builtCells_rings [Field α] (cfg : BoardConfig α) :
    (builtCells cfg).map Hexagon.ring =
      Hexagon.creation_data.map fun r => r.2.2.1 := by
  unfold builtCells
  rw [List.map_map,
    show (Hexagon.ring ∘ indexedCell cfg) = fun r => r.2.2.1 from
      funext fun r => indexedCell_ring cfg r]

/-- The name table keys every value under its own name. -/
theorem builtN_eq [Field α] (cfg : BoardConfig α) :
    (builtState cfg).name_to_hexagon = (builtCells cfg).map fun c => (c.name, c) := by
  show Hexagon.creation_data.map (fun r => (r.1, indexedCell cfg r)) =
    (Hexagon.creation_data.map (indexedCell cfg)).map fun c => (c.name, c)
  rw [List.map_map]
  refine congrArg (fun f => List.map f Hexagon.creation_data) (funext fun r => ?_)
  show (r.1, indexedCell cfg r) = ((indexedCell cfg r).name, indexedCell cfg r)
  rw [indexedCell_name]

/-- The position table keys every value under its own position. -/
theorem builtP_eq [Field α] (cfg : BoardConfig α) :
    (builtState cfg).position_uv_to_hexagon =
      (builtCells cfg).map fun c => (c.position_uv, c) := by
  show Hexagon.creation_data.map (fun r => (r.2.1, indexedCell cfg r)) =
    (Hexagon.creation_data.map (indexedCell cfg)).map fun c => (c.position_uv, c)
  rw [List.map_map]
  refine congrArg (fun f => List.map f Hexagon.creation_data) (funext fun r => ?_)
  show (r.2.1, indexedCell cfg r) = ((indexedCell cfg r).position_uv, indexedCell cfg r)
  rw [indexedCell_position]

/-- The values of the name table are the catalog cells in creation order. -/
theorem builtN_values [Field α] (cfg : BoardConfig α) :
    (builtState cfg).name_to_hexagon.map Prod.snd = builtCells cfg := by
  show (Hexagon.creation_data.map fun r => (r.1, indexedCell cfg r)).map Prod.snd =
    builtCells cfg
  rw [List.map_map]
  rfl

theorem catalog_positions_nodup :
    (Hexagon.creation_data.map fun r => r.2.1).Nodup := by decide

theorem flatMap_congr_fun {β γ : Type} (l : List β) (f g : β → List γ)
    (h : ∀ b ∈ l, f b = g b) : l.flatMap f = l.flatMap g := by
  induction l with
  | nil => rfl
  | cons b l ih =>
      simp only [List.flatMap_cons, h b (List.mem_cons_self b l)]
      rw [ih fun x hx => h x (List.mem_cons_of_mem b hx)]

/-! ### The claims -/

/-- C8 counterexample: dividing by the `int` operand `0` raises
`ZeroDivisionError` instead of returning a scaled vector, so the claim's
"for int or float operands both operations return a new TinyVector with
both components scaled" fails at the concrete input `v = (1, 2)`,
`x = int 0`. -/
theorem C8_counterexample :
    TinyVector.truediv (⟨1, 2⟩ : TinyVector ℚ) (Operand.int 0) =
      Except.error PyError.zeroDivisionError := rfl

/-- C8 (amended): for an operand that is neither an `int` nor a `float`,
both `v * x` and `v / x` raise `NotImplementedError`; for an `int` or
`float` operand, `v * x` returns a new vector with both components scaled,
and so does `v / x` provided the operand is non-zero (a zero divisor raises
`ZeroDivisionError`). All operations build new vectors, so `v` itself is
unchanged. -/
theorem C8_theorem (v : TinyVector ℚ) (o : Operand ℚ) :
    (o.isNumeric = false →
      v.mul o = Except.error PyError.notImplementedError ∧
      v.truediv o = Except.error PyError.notImplementedError) ∧
    (∀ n : ℤ, o = Operand.int n →
      v.mul o = Except.ok ⟨v.x * (n : ℚ), v.y * (n : ℚ)⟩ ∧
      (n ≠ 0 → v.truediv o = Except.ok ⟨v.x / (n : ℚ), v.y / (n : ℚ)⟩)) ∧
    (∀ c : ℚ, o = Operand.float c →
      v.mul o = Except.ok ⟨v.x * c, v.y * c⟩ ∧
      (c ≠ 0 → v.truediv o = Except.ok ⟨v.x / c, v.y / c⟩)) := by
  refine ⟨?_, ?_, ?_⟩
  · intro ho
    cases o with
    | int n => simp [Operand.isNumeric] at ho
    | float c => simp [Operand.isNumeric] at ho
    | vector w => exact ⟨rfl, rfl⟩
    | other s => exact ⟨rfl, rfl⟩
  · rintro n rfl
    refine ⟨rfl, fun hn => ?_⟩
    simp [TinyVector.truediv, hn]
  · rintro c rfl
    refine ⟨rfl, fun hc => ?_⟩
    simp [TinyVector.truediv, hc]

/-- C8 witness: at concrete inputs, a string operand raises
`NotImplementedError` for both operations, and `int 5` scales both
components of `(2, 3)`. -/
theorem C8_witness :
    (TinyVector.mul (⟨2, 3⟩ : TinyVector ℚ) (Operand.other "label") =
        Except.error PyError.notImplementedError ∧
      TinyVector.truediv (⟨2, 3⟩ : TinyVector ℚ) (Operand.other "label") =
        Except.error PyError.notImplementedError) ∧
    TinyVector.mul (⟨2, 3⟩ : TinyVector ℚ) (Operand.int 5) =
      Except.ok ⟨2 * ((5 : ℤ) : ℚ), 3 * ((5 : ℤ) : ℚ)⟩ ∧
    TinyVector.truediv (⟨2, 3⟩ : TinyVector ℚ) (Operand.int 5) =
      Except.ok ⟨2 / ((5 : ℤ) : ℚ), 3 / ((5 : ℤ) : ℚ)⟩ := by
  have h1 := C8_theorem (⟨2, 3⟩ : TinyVector ℚ) (Operand.other "label")
  have h2 := C8_theorem (⟨2, 3⟩ : TinyVector ℚ) (Operand.int 5)
  exact ⟨h1.1 rfl, (h2.2.1 5 rfl).1, (h2.2.1 5 rfl).2 (by decide)⟩

/-- C9: rotation is additive — rotating by `a` then `b` equals rotating by
`a + b`, exactly over the reals — and rotation by `2π` returns the original
vector exactly (hence within any floating-point tolerance). -/
theorem C9_theorem (v : TinyVector ℝ) (a b : ℝ) :
    TinyVector.make_rotation ⟨Real.pi, Real.sqrt, Real.cos, Real.sin⟩
        (TinyVector.make_rotation ⟨Real.pi, Real.sqrt, Real.cos, Real.sin⟩ v a) b =
      TinyVector.make_rotation ⟨Real.pi, Real.sqrt, Real.cos, Real.sin⟩ v (a + b) ∧
    TinyVector.make_rotation ⟨Real.pi, Real.sqrt, Real.cos, Real.sin⟩ v
        (2 * Real.pi) = v := by
  obtain ⟨x, y⟩ := v
  constructor
  · simp only [TinyVector.make_rotation, TinyVector.mk.injEq]
    constructor
    · rw [Real.cos_add, Real.sin_add]; ring
    · rw [Real.cos_add, Real.sin_add]; ring
  · simp only [TinyVector.make_rotation, TinyVector.mk.injEq,
      Real.cos_two_pi, Real.sin_two_pi]
    constructor <;> ring

/-- C1 counterexample: at a concrete configuration, `Hexagon.get_all()` has
length 49, not 48 — the rows hold 6+7+8+7+8+7+6 = 49 cells. -/
theorem C1_counterexample :
    ¬ (Hexagon.get_all (readyState testConfig)).length = 48 := by
  rw [readyState_eq]
  decide

/-- C1 (amended): after `Hexagon.init()` completes (it does, from the
pristine class state), the catalog contains exactly 49 cells: `get_all` has
length 49, the name table has 49 entries with pairwise distinct names, and
the position table has 49 entries with pairwise distinct axial positions. -/
theorem C1_theorem {α : Type} [Field α] (cfg : BoardConfig α) :
    Hexagon.init cfg Hexagon.startState = some (readyState cfg) ∧
    (Hexagon.get_all (readyState cfg)).length = 49 ∧
    ((Hexagon.get_all (readyState cfg)).map Hexagon.name).Nodup ∧
    (readyState cfg).name_to_hexagon.length = 49 ∧
    ((readyState cfg).name_to_hexagon.map Prod.fst).Nodup ∧
    (readyState cfg).position_uv_to_hexagon.length = 49 ∧
    ((readyState cfg).position_uv_to_hexagon.map Prod.fst).Nodup := by
  refine ⟨?_, ?_, ?_, ?_, ?_, ?_, ?_⟩ <;> rw [readyState_eq]
  · exact init_clean cfg Hexagon.startState rfl rfl rfl
  · exact builtCells_length cfg
  · rw [show Hexagon.get_all (builtState cfg) = builtCells cfg from rfl,
      builtCells_names]
    exact catalog_names_nodup
  · show (Hexagon.creation_data.map fun r => (r.1, indexedCell cfg r)).length = 49
    rw [List.length_map]
    rfl
  · rw [builtN_eq, List.map_map,
      show (Prod.fst ∘ fun c : Hexagon α => (c.name, c)) = Hexagon.name from rfl,
      builtCells_names]
    exact catalog_names_nodup
  · show (Hexagon.creation_data.map fun r => (r.2.1, indexedCell cfg r)).length = 49
    rw [List.length_map]
    rfl
  · rw [builtP_eq, List.map_map,
      show (Prod.fst ∘ fun c : Hexagon α => (c.position_uv, c)) = Hexagon.position_uv
        from rfl,
      builtCells_positions]
    exact catalog_positions_nodup

/-- C3: every catalog cell's ring equals the hexagonal graph distance from
the center for the six neighbour steps of `__create_delta_u_and_v` — both
as the exact shortest-walk length (`is_graph_distance`) and through the
closed formula `(|u| + |v| + |u+v|) / 2`; `d4` sits at `(0, 0)` with ring
0, and `a1` and `g6` both have ring 4. -/
theorem C3_theorem {α : Type} [Field α] (cfg : BoardConfig α) :
    (∀ h ∈ Hexagon.get_all (readyState cfg),
      h.ring = hex_distance h.position_uv ∧
      is_graph_distance h.position_uv h.ring.toNat) ∧
    (∃ h, Hexagon.get (readyState cfg) "d4" = some h ∧
      h.position_uv = (0, 0) ∧ h.ring = 0) ∧
    (∃ h, Hexagon.get (readyState cfg) "a1" = some h ∧ h.ring = 4) ∧
    (∃ h, Hexagon.get (readyState cfg) "g6" = some h ∧ h.ring = 4) := by
  have master : ∀ r ∈ Hexagon.creation_data,
      r.2.2.1 = hex_distance r.2.1 ∧ is_graph_distance r.2.1 r.2.2.1.toNat := by
    decide
  have hnodup : ((builtCells (α := α) cfg).map Hexagon.name).Nodup := by
    rw [builtCells_names]; exact catalog_names_nodup
  have hget : ∀ r ∈ Hexagon.creation_data,
      Hexagon.get (readyState cfg) r.1 = some (indexedCell cfg r) := by
    intro r hr
    unfold Hexagon.get
    rw [readyState_eq, builtN_eq]
    have hkey := dictGet_map_key Hexagon.name (builtCells cfg) hnodup
      (indexedCell cfg r) (List.mem_map_of_mem (indexedCell cfg) hr)
    rw [indexedCell_name] at hkey
    exact hkey
  refine ⟨?_, ?_, ?_, ?_⟩
  · intro h hm
    rw [readyState_eq] at hm
    rw [show Hexagon.get_all (builtState cfg) = builtCells cfg from rfl] at hm
    obtain ⟨r, hr, rfl⟩ := List.mem_map.mp hm
    rw [indexedCell_ring, indexedCell_position]
    exact master r hr
  · refine ⟨indexedCell cfg ("d4", (0, 0), 0, none),
      hget ("d4", (0, 0), 0, none) (by decide), ?_, ?_⟩
    · rw [indexedCell_position]
    · rw [indexedCell_ring]
  · refine ⟨indexedCell cfg ("a1", (-1, -3), 4, some Side.WEST),
      hget ("a1", (-1, -3), 4, some Side.WEST) (by decide), ?_⟩
    rw [indexedCell_ring]
  · refine ⟨indexedCell cfg ("g6", (1, 3), 4, some Side.EAST),
      hget ("g6", (1, 3), 4, some Side.EAST) (by decide), ?_⟩
    rw [indexedCell_ring]

/-- C3 witness: the catalog cell `a1` at `(-1, -3)` has ring 4, which is
both the closed-formula distance and the exact shortest-walk length. -/
theorem C3_witness :
    hexA1.ring = hex_distance hexA1.position_uv ∧
    is_graph_distance hexA1.position_uv hexA1.ring.toNat :=
  (C3_theorem testConfig).1 hexA1 (by
    rw [readyState_eq]
    exact List.mem_map_of_mem (indexedCell testConfig) (by decide))

/-- C4 counterexample: at a concrete configuration the multiset of ring
values has 5 distinct values (0..4), not 7. -/
theorem C4_counterexample :
    ¬ ((Hexagon.get_all (readyState testConfig)).map Hexagon.ring).dedup.length = 7 := by
  rw [readyState_eq]
  rw [show Hexagon.get_all (builtState testConfig) = builtCells testConfig from rfl,
    builtCells_rings]
  decide

/-- C4 (amended): the multiset of ring values over the catalog has exactly
5 distinct values, every ring value is non-negative, and the ring values
are symmetric around the center cell: the cell at the reflected axial
position `(-u, -v)` exists and has the same ring value. -/
theorem C4_theorem {α : Type} [Field α] (cfg : BoardConfig α) :
    ((Hexagon.get_all (readyState cfg)).map Hexagon.ring).dedup.length = 5 ∧
    (∀ h ∈ Hexagon.get_all (readyState cfg), 0 ≤ h.ring) ∧
    (∀ h ∈ Hexagon.get_all (readyState cfg),
      ∃ h2 ∈ Hexagon.get_all (readyState cfg),
        h2.position_uv = (-h.position_uv.1, -h.position_uv.2) ∧
        h2.ring = h.ring) := by
  have hsym : ∀ r ∈ Hexagon.creation_data, ∃ r2 ∈ Hexagon.creation_data,
      r2.2.1 = (-r.2.1.1, -r.2.1.2) ∧ r2.2.2.1 = r.2.2.1 := by
    decide
  refine ⟨?_, ?_, ?_⟩
  · rw [readyState_eq,
      show Hexagon.get_all (builtState cfg) = builtCells cfg from rfl,
      builtCells_rings]
    decide
  · intro h hm
    rw [readyState_eq,
      show Hexagon.get_all (builtState cfg) = builtCells cfg from rfl] at hm
    obtain ⟨r, hr, rfl⟩ := List.mem_map.mp hm
    rw [indexedCell_ring]
    exact (by decide : ∀ r ∈ Hexagon.creation_data, 0 ≤ r.2.2.1) r hr
  · intro h hm
    rw [readyState_eq,
      show Hexagon.get_all (builtState cfg) = builtCells cfg from rfl] at hm
    obtain ⟨r, hr, rfl⟩ := List.mem_map.mp hm
    obtain ⟨r2, hr2, hpos, hring⟩ := hsym r hr
    refine ⟨indexedCell cfg r2, ?_, ?_, ?_⟩
    · rw [readyState_eq,
        show Hexagon.get_all (builtState cfg) = builtCells cfg from rfl]
      exact List.mem_map_of_mem (indexedCell cfg) hr2
    · rw [indexedCell_position, indexedCell_position, hpos]
    · rw [indexedCell_ring, indexedCell_ring, hring]

/-- C4 witness: the catalog cell `a1` has non-negative ring, and the cell
at the reflected position `(1, 3)` (namely `g6`) has the same ring value. -/
theorem C4_witness :
    0 ≤ hexA1.ring ∧
    ∃ h2 ∈ Hexagon.get_all (readyState testConfig),
      h2.position_uv = (-hexA1.position_uv.1, -hexA1.position_uv.2) ∧
      h2.ring = hexA1.ring := by
  have hmem : hexA1 ∈ Hexagon.get_all (readyState testConfig) := by
    rw [readyState_eq]
    exact List.mem_map_of_mem (indexedCell testConfig) (by decide)
  exact ⟨(C4_theorem testConfig).2.1 hexA1 hmem,
    (C4_theorem testConfig).2.2 hexA1 hmem⟩

/-- C6: initializing after a reset rebuilds, from any state, exactly the
state the first initialization builds from the pristine class state — the
same names, positions, rings, label sides, sorted order, index assignment
and computed centers, for the same configuration — and a repeated
`Hexagon.init()` without an intervening reset is a no-op. -/
theorem C6_theorem {α : Type} [Field α] (cfg : BoardConfig α)
    (s t : HexagonState α) :
    Hexagon.init cfg (Hexagon.reset t) = Hexagon.init cfg Hexagon.startState ∧
    Hexagon.init cfg Hexagon.startState = some (readyState cfg) ∧
    (Hexagon.init cfg s = some t → Hexagon.init cfg t = some t) := by
  refine ⟨?_, ?_, ?_⟩
  · rw [init_clean cfg (Hexagon.reset t) rfl rfl rfl,
      init_clean cfg Hexagon.startState rfl rfl rfl]
  · rw [readyState_eq]
    exact init_clean cfg Hexagon.startState rfl rfl rfl
  · intro hst
    by_cases hd : s.init_done = true
    · unfold Hexagon.init at hst
      rw [if_pos hd] at hst
      cases hst
      unfold Hexagon.init
      rw [if_pos hd]
    · unfold Hexagon.init at hst
      rw [if_neg hd] at hst
      obtain ⟨s1, -, heq⟩ := Option.map_eq_some'.mp hst
      subst heq
      unfold Hexagon.init
      rw [if_pos rfl]

/-- C6 witness: at the test configuration, reset-then-init equals the first
initialization, and a second `init` on the initialized state is a no-op. -/
theorem C6_witness :
    Hexagon.init testConfig (Hexagon.reset (readyState testConfig)) =
      Hexagon.init testConfig Hexagon.startState ∧
    Hexagon.init testConfig (readyState testConfig) =
      some (readyState testConfig) := by
  have h := C6_theorem testConfig Hexagon.startState (readyState testConfig)
  exact ⟨h.1, h.2.2 h.2.1⟩

/-- C7: for every cell registered in the name table, looking its axial
position up in the position table and looking its name up via
`Hexagon.get` both return that very cell. -/
theorem C7_theorem {α : Type} [Field α] (cfg : BoardConfig α) :
    ∀ h ∈ (readyState cfg).name_to_hexagon.map Prod.snd,
      Hexagon.get_by_position (readyState cfg) h.position_uv = some h ∧
      Hexagon.get (readyState cfg) h.name = some h := by
  intro h hm
  rw [readyState_eq, builtN_values] at hm
  constructor
  · unfold Hexagon.get_by_position
    rw [readyState_eq, builtP_eq]
    exact dictGet_map_key Hexagon.position_uv (builtCells cfg)
      (by rw [builtCells_positions]; exact catalog_positions_nodup) h hm
  · unfold Hexagon.get
    rw [readyState_eq, builtN_eq]
    exact dictGet_map_key Hexagon.name (builtCells cfg)
      (by rw [builtCells_names]; exact catalog_names_nodup) h hm

/-- C7 witness: the registered cell `a1` is found by its position `(-1, -3)`
and by its name alike. -/
theorem C7_witness :
    Hexagon.get_by_position (readyState testConfig) hexA1.position_uv =
      some hexA1 ∧
    Hexagon.get (readyState testConfig) hexA1.name = some hexA1 :=
  C7_theorem testConfig hexA1 (by
    rw [readyState_eq, builtN_values]
    exact List.mem_map_of_mem (indexedCell testConfig) (by decide))

/-- C10: `Hexagon.reset()` clears the name table, the position table, the
sorted cell list, the layout and the init flag, but leaves the `Hexagon.all`
class attribute referencing the previous sorted list of 49 cells, while
`Hexagon.get_all()` already returns the new empty list — so the two
accessors disagree until the next `init`. -/
theorem C10_theorem {α : Type} [Field α] (cfg : BoardConfig α)
    (t : HexagonState α)
    (ht : Hexagon.init cfg Hexagon.startState = some t) :
    (Hexagon.reset t).name_to_hexagon = [] ∧
    (Hexagon.reset t).position_uv_to_hexagon = [] ∧
    (Hexagon.reset t).all_sorted_hexagons = [] ∧
    (Hexagon.reset t).layout = [] ∧
    (Hexagon.reset t).init_done = false ∧
    (Hexagon.reset t).all = t.all ∧
    t.all = some (Hexagon.get_all t) ∧
    (Hexagon.get_all t).length = 49 ∧
    Hexagon.get_all (Hexagon.reset t) = [] ∧
    (Hexagon.reset t).all ≠ some (Hexagon.get_all (Hexagon.reset t)) := by
  rw [init_clean cfg Hexagon.startState rfl rfl rfl] at ht
  have hbt : t = builtState cfg := (Option.some.inj ht).symm
  subst hbt
  refine ⟨rfl, rfl, rfl, rfl, rfl, rfl, rfl, builtCells_length cfg, rfl, ?_⟩
  intro hc
  have h1 : (builtCells cfg).length = ([] : List (Hexagon α)).length :=
    congrArg List.length (Option.some.inj hc)
  rw [builtCells_length, List.length_nil] at h1
  exact absurd h1 (by decide)

/-- C10 witness: at the test configuration, the reset state's tables are
empty while `Hexagon.all` still holds the 49 previous cells. -/
theorem C10_witness :
    (Hexagon.reset (readyState testConfig)).name_to_hexagon = [] ∧
    (Hexagon.reset (readyState testConfig)).position_uv_to_hexagon = [] ∧
    (Hexagon.reset (readyState testConfig)).all_sorted_hexagons = [] ∧
    (Hexagon.reset (readyState testConfig)).layout = [] ∧
    (Hexagon.reset (readyState testConfig)).init_done = false ∧
    (Hexagon.reset (readyState testConfig)).all = (readyState testConfig).all ∧
    (readyState testConfig).all =
      some (Hexagon.get_all (readyState testConfig)) ∧
    (Hexagon.get_all (readyState testConfig)).length = 49 ∧
    Hexagon.get_all (Hexagon.reset (readyState testConfig)) = [] ∧
    (Hexagon.reset (readyState testConfig)).all ≠
      some (Hexagon.get_all (Hexagon.reset (readyState testConfig))) :=
  C10_theorem testConfig (readyState testConfig)
    (by rw [readyState_eq]
        exact init_clean testConfig Hexagon.startState rfl rfl rfl)

/-- C2 counterexample: with all labels on, the drawing holds one text per
cell — 49 of them, never 48. -/
theorem C2_counterexample :
    ¬ (draw_board testOps testConfig optsAllLabels testRnd
        (readyState testConfig)).map (fun es => (svgTexts es).length) =
      some 48 := by
  rw [readyState_eq]
  decide

/-- C2 (amended): for every configuration, scale factor and decoration
setting, `draw_board` with `without_labels=True` appends no text element,
and with `with_all_labels=True` (and `without_labels=False`) appends
exactly 49 text elements — one per catalog cell, placed at the cell's
center plus the configured vertical label shift. -/
theorem C2_theorem {α : Type} [Field α] (ops : MathOps α) (cfg : BoardConfig α)
    (opts : DrawOptions α)
    (rnd : String → ℕ → List (TinyVector α × TinyVector α)) :
    (opts.without_labels = true →
      (draw_board ops cfg opts rnd (readyState cfg)).map svgTexts = some []) ∧
    (opts.without_labels = false → opts.with_all_labels = true →
      (draw_board ops cfg opts rnd (readyState cfg)).map svgTexts =
        some ((Hexagon.get_all (readyState cfg)).map fun h =>
          Element.text h.name cfg.label_font_size cfg.label_font_family
            (h.center + cfg.label_vertical_shift).x
            (h.center + cfg.label_vertical_shift).y true cfg.label_color) ∧
      (draw_board ops cfg opts rnd (readyState cfg)).map
          (fun es => (svgTexts es).length) = some 49) := by
  have hall : (readyState cfg).all = some (Hexagon.get_all (readyState cfg)) := by
    rw [readyState_eq]
    rfl
  constructor
  · intro hw
    rw [svgTexts_draw_board ops cfg opts rnd _ _ hall]
    rw [flatMap_congr_fun _ _ (fun _ => [])
      (fun h _ => label_elements_without cfg opts h hw)]
    rw [flatMap_nil_fun]
  · intro hw ha
    have htexts : (draw_board ops cfg opts rnd (readyState cfg)).map svgTexts =
        some ((Hexagon.get_all (readyState cfg)).map fun h =>
          Element.text h.name cfg.label_font_size cfg.label_font_family
            (h.center + cfg.label_vertical_shift).x
            (h.center + cfg.label_vertical_shift).y true cfg.label_color) := by
      rw [svgTexts_draw_board ops cfg opts rnd _ _ hall]
      rw [flatMap_congr_fun _ _
        (fun h => [Element.text h.name cfg.label_font_size cfg.label_font_family
          (h.center + cfg.label_vertical_shift).x
          (h.center + cfg.label_vertical_shift).y true cfg.label_color])
        (fun h _ => label_elements_all cfg opts h hw ha)]
      rw [flatMap_singleton_fun]
    refine ⟨htexts, ?_⟩
    have hcomp : (draw_board ops cfg opts rnd (readyState cfg)).map
        (fun es => (svgTexts es).length) =
        ((draw_board ops cfg opts rnd (readyState cfg)).map svgTexts).map
          List.length := by
      rw [Option.map_map]
      rfl
    rw [hcomp, htexts, Option.map_some', List.length_map, readyState_eq]
    rw [show Hexagon.get_all (builtState cfg) = builtCells cfg from rfl,
      builtCells_length]

/-- C2 witness: at the test configuration, `without_labels` yields no text
and `with_all_labels` yields 49 texts. -/
theorem C2_witness :
    (draw_board testOps testConfig optsNoLabels testRnd
      (readyState testConfig)).map svgTexts = some [] ∧
    (draw_board testOps testConfig optsAllLabels testRnd
      (readyState testConfig)).map (fun es => (svgTexts es).length) =
      some 49 :=
  ⟨(C2_theorem testOps testConfig optsNoLabels testRnd).1 rfl,
   ((C2_theorem testOps testConfig optsAllLabels testRnd).2 rfl rfl).2⟩

/-- C5: in the default label mode (`without_labels=False`,
`with_all_labels=False`), a cell tagged `Side.WEST` contributes exactly one
text at its center minus the horizontal label shift, a cell tagged
`Side.EAST` exactly one text at its center plus that shift, and any other
cell contributes no text element. -/
theorem C5_theorem {α : Type} [Field α] (ops : MathOps α) (cfg : BoardConfig α)
    (opts : DrawOptions α)
    (rnd : String → ℕ → List (TinyVector α × TinyVector α))
    (hw : opts.without_labels = false) (ha : opts.with_all_labels = false) :
    ∀ h ∈ Hexagon.get_all (readyState cfg),
      svgTexts (draw_board_hexagon ops cfg opts rnd h) =
        match h.label_side with
        | some Side.WEST =>
            [Element.text h.name cfg.label_font_size cfg.label_font_family
              (h.center - cfg.label_horizontal_shift).x
              (h.center - cfg.label_horizontal_shift).y true cfg.label_color]
        | some Side.EAST =>
            [Element.text h.name cfg.label_font_size cfg.label_font_family
              (h.center + cfg.label_horizontal_shift).x
              (h.center + cfg.label_horizontal_shift).y true cfg.label_color]
        | _ => [] := by
  intro h _
  rw [svgTexts_draw_board_hexagon, label_elements_few cfg opts h hw ha]

/-- C5 witness: the west-tagged cell `a1` contributes exactly one text at
its center minus the horizontal shift. -/
theorem C5_witness :
    svgTexts (draw_board_hexagon testOps testConfig optsDefault testRnd hexA1) =
      [Element.text hexA1.name testConfig.label_font_size
        testConfig.label_font_family
        (hexA1.center - testConfig.label_horizontal_shift).x
        (hexA1.center - testConfig.label_horizontal_shift).y true
        testConfig.label_color] := by
  rw [C5_theorem testOps testConfig optsDefault testRnd rfl rfl hexA1
    (by rw [readyState_eq]
        exact List.mem_map_of_mem (indexedCell testConfig) (by decide))]
  rfl

end Staku
